import Mathlib

/-!
Verification of the graph-analytics and query-diagnostics core of the
Social Graph repository (GraphManager.py and NL_Query_Processor.py).

The external Neo4j store is modelled as a closed-world value: the node
tables (Account names, Post records) and edge tables (Follows, Likes)
that the Cypher queries of the source read.  Each Cypher query issued by
the source is translated into a Lean function over that value, following
the query text clause by clause; Cypher floats are modelled as exact
rationals.
-/

set_option maxRecDepth 10000

namespace SocialGraph

/-- A Post node: post_id (unique key), post_content, and the Account that
authored it via the Posts edge (created atomically with the post in
add_post, so each post has exactly one author). -/
structure Post where
  post_id : String
  post_content : String
  author : String
deriving DecidableEq, Repr

/-- The property-graph state: Account nodes (by unique name), Follows edges
(Account name pairs), Post nodes, and Likes edges (Account name, post_id). -/
structure Graph where
  accounts : List String
  follows : List (String × String)
  posts : List Post
  likes : List (String × String)
deriving DecidableEq, Repr

/-! ### PageRank (GraphManager._custom_pagerank_implementation)

The iteration query is

  MATCH (a:Account)
  OPTIONAL MATCH (a)<-[:Follows]-(follower:Account)
  WITH a, COLLECT(follower) AS followers, {1 - damping} AS base_score
  UNWIND followers AS f
  OPTIONAL MATCH (f)-[:Follows]->(outlinks)
  WITH a, f, base_score, COUNT(outlinks) AS outlinks_count
  WITH a, base_score, SUM(CASE WHEN outlinks_count > 0
        THEN f.prevPagerank / outlinks_count ELSE 0 END) AS incoming_score
  SET a.pagerank = base_score + {damping} * incoming_score

Cypher semantics that matter here: COLLECT over an OPTIONAL MATCH that
found nothing yields the empty list, and UNWIND of an empty list produces
zero rows, so for an account with no followers the SET clause is never
reached and a.pagerank keeps its previous value.  The grouping
`WITH a, f, ... COUNT(outlinks)` groups rows by distinct follower f, with
COUNT multiplied by the multiplicity of f among the collected followers. -/

/-- Followers of `a`: sources of Follows edges into `a`
(`(a)<-[:Follows]-(follower:Account)`; the follower carries the Account
label). -/
def followersOf (g : Graph) (a : String) : List String :=
  (g.follows.filter (fun e => decide (e.2 = a ∧ e.1 ∈ g.accounts))).map (fun e => e.1)

/-- Out-degree of `f`: number of Follows edges out of `f`
(`(f)-[:Follows]->(outlinks)`, no label restriction on the target). -/
def outDegree (g : Graph) (f : String) : Nat :=
  (g.follows.filter (fun e => decide (e.1 = f))).length

/-- One round of the iteration query: accounts with at least one follower
get the damped score; accounts with no followers keep their previous
pagerank value (the UNWIND of an empty list produces no rows, so the SET
never runs for them). -/
def pagerankRound (g : Graph) (damping : ℚ) (pr : String → ℚ) : String → ℚ :=
  fun a =>
    let followers := followersOf g a
    if followers.isEmpty then pr a
    else
      (1 - damping) + damping *
        (followers.dedup.map (fun f =>
          let outlinksCount := followers.count f * outDegree g f
          if outlinksCount = 0 then 0 else pr f / (outlinksCount : ℚ))).sum

/-- The pagerank property after the `iterations` update rounds, starting
from the initialisation `SET a.pagerank = 1.0` (the prevPagerank snapshot
taken at the start of each round is the pagerank value of the previous
round, so each round is a pure function of the previous state). -/
def customPagerankScores (g : Graph) (iterations : Nat) (damping : ℚ) : String → ℚ :=
  (pagerankRound g damping)^[iterations] (fun _ => 1)

/-- Descending order on a rational score: x may come before y when
y's score is at most x's (ORDER BY score DESC). -/
def byScoreDesc {α : Type} (score : α → ℚ) (x y : α) : Prop :=
  score y ≤ score x

instance {α : Type} (score : α → ℚ) : DecidableRel (byScoreDesc score) :=
  fun x y => inferInstanceAs (Decidable (score y ≤ score x))

instance {α : Type} (score : α → ℚ) : IsTotal α (byScoreDesc score) :=
  ⟨fun x y => le_total (score y) (score x)⟩

instance {α : Type} (score : α → ℚ) : IsTrans α (byScoreDesc score) :=
  ⟨fun _ _ _ h1 h2 => le_trans h2 h1⟩

/-- GraphManager._custom_pagerank_implementation: initialise every
account's pagerank to 1.0 (returning [] at once when there are zero
accounts), run the fixed number of update rounds, and read back
(account, pagerank) ordered by pagerank descending. -/
def custom_pagerank_implementation (g : Graph) (iterations : Nat) (damping : ℚ) :
    List (String × ℚ) :=
  if g.accounts.length = 0 then []
  else
    List.insertionSort (byScoreDesc (fun r => r.2))
      (g.accounts.map (fun a => (a, customPagerankScores g iterations damping a)))

/-! ### Round-trip protocol of _custom_pagerank_implementation

The method issues one init query, then per iteration one prevPagerank
snapshot query and one update query, then one result query, then one
cleanup query (REMOVE a.pagerank, a.prevPagerank) — the cleanup is plain
sequential code after the result read, not a finally block, so an
exception from any round-trip propagates immediately and skips every
later round-trip.  We track whether the ephemeral pagerank/prevPagerank
properties are present on the accounts (every query writes them on all
accounts uniformly, so one flag models the whole account set), with a
failure oracle saying which round-trip raises a store error. -/

/-- The five kinds of store round-trips the method performs, in order:
init, then per iteration updatePrev and iteration, then readResult, then
cleanup. -/
inductive PRStep
  | init
  | updatePrev
  | iteration
  | readResult
  | cleanup
deriving DecidableEq, Repr

/-- The two snapshot/update round-trips of each of the `n` iterations. -/
def prRounds : Nat → List PRStep
  | 0 => []
  | n + 1 => PRStep.updatePrev :: PRStep.iteration :: prRounds n

/-- Run the remaining round-trips: the k-th query raises when `fail k`,
propagating the exception with the current property state (`.error`);
otherwise the query's effect on property presence is applied (only
cleanup removes the properties) and execution continues. -/
def runPRSteps (fail : Nat → Bool) : List PRStep → Nat → Bool → Except Bool Bool
  | [], _, props => .ok props
  | s :: rest, k, props =>
    if fail k then .error props
    else runPRSteps fail rest (k + 1) (if s = PRStep.cleanup then false else props)

/-- The whole protocol: round-trip 0 is the init query (SET pagerank,
prevPagerank on every account); if it raises nothing was written.  With
zero accounts the method returns [] right after init, before any other
round-trip.  Otherwise the iteration/read/cleanup round-trips run in
sequence.  The Bool carried by either outcome is whether any account
still holds the ephemeral properties when the call returns or raises. -/
def customPagerankRun (g : Graph) (iterations : Nat) (fail : Nat → Bool) :
    Except Bool Bool :=
  if fail 0 then .error false
  else if g.accounts.isEmpty then .ok false
  else runPRSteps fail (prRounds iterations ++ [PRStep.readResult, PRStep.cleanup]) 1 true

/-- Whether any account still holds the ephemeral properties in the
outcome of a run, for either a normal return or a raised exception. -/
def residualProps : Except Bool Bool → Bool
  | .ok props => props
  | .error props => props

/-- No account retains pagerank/prevPagerank after the call ends, whether
it returned normally or raised. -/
def noResidualState (r : Except Bool Bool) : Prop :=
  residualProps r = false

instance (r : Except Bool Bool) : Decidable (noResidualState r) :=
  inferInstanceAs (Decidable (residualProps r = false))

/-! ### calculate_pagerank: native GDS attempt with silent fallback -/

/-- Log levels used by calculate_pagerank's exception handler. -/
inductive LogLevel
  | warning
  | info
deriving DecidableEq, Repr

/-- GraphManager.calculate_pagerank: try the GDS bulk query; on success
return its rows; on any exception log a warning (then an info line) and
return the custom iterative implementation's result instead.  The
outcome of the GDS attempt is passed in as a value; the Except in the
result records whether the method itself raises towards the caller. -/
def calculate_pagerank (g : Graph) (iterations : Nat) (damping : ℚ)
    (gdsAttempt : Except String (List (String × ℚ))) :
    Except String (List (String × ℚ)) × List LogLevel :=
  match gdsAttempt with
  | .ok rows => (.ok rows, [])
  | .error _ =>
    (.ok (custom_pagerank_implementation g iterations damping),
     [LogLevel.warning, LogLevel.info])

/-! ### find_similar_accounts (GraphManager.find_similar_accounts)

  MATCH (a:Account {name: $name})-[:Follows]->(followed:Account)
  WITH a, collect(followed) AS user_follows
  MATCH (other:Account)-[:Follows]->(their_followed:Account) WHERE other <> a
  WITH other, user_follows, collect(their_followed) AS other_follows,
       size(user_follows) AS user_follow_count
  WITH other, size([x IN other_follows WHERE x IN user_follows]) AS common_follows,
       user_follow_count
  WITH other.name AS similar_account, common_follows,
       toFloat(common_follows) / user_follow_count AS similarity_score
  WHERE similarity_score > 0
  RETURN ... ORDER BY similarity_score DESC, common_follows DESC LIMIT $limit

The first MATCH produces no rows (hence an empty result) when the source
account does not exist or follows nobody; the second MATCH only produces
groups for accounts with at least one outgoing Follows edge. -/

/-- The accounts `a` follows: targets of Follows edges out of `a`
(the target carries the Account label in every MATCH that uses it). -/
def followTargets (g : Graph) (a : String) : List String :=
  (g.follows.filter (fun e => decide (e.1 = a ∧ e.2 ∈ g.accounts))).map (fun e => e.2)

/-- size([x IN other_follows WHERE x IN user_follows]): how many of the
accounts `o` follows are also followed by `account`. -/
def commonFollows (g : Graph) (account o : String) : Nat :=
  ((followTargets g o).filter (fun x => decide (x ∈ followTargets g account))).length

/-- The row the query builds for candidate account `o`:
(similar_account, common_follows, similarity_score). -/
def simRow (g : Graph) (account o : String) : String × Nat × ℚ :=
  (o, commonFollows g account o,
   (commonFollows g account o : ℚ) / ((followTargets g account).length : ℚ))

/-- Rows surviving the `WHERE similarity_score > 0` filter, one per
account other than the source that follows at least one account. -/
def similarityRows (g : Graph) (account : String) : List (String × Nat × ℚ) :=
  ((g.accounts.filter (fun o => decide (o ≠ account ∧ followTargets g o ≠ []))).map
    (simRow g account)).filter (fun r => decide ((0 : ℚ) < r.2.2))

/-- ORDER BY similarity_score DESC, common_follows DESC: x may precede y
when x's score is larger, or the scores are equal and x's common-follow
count is at least y's. -/
def simDesc (x y : String × Nat × ℚ) : Prop :=
  y.2.2 < x.2.2 ∨ (x.2.2 = y.2.2 ∧ y.2.1 ≤ x.2.1)

instance : DecidableRel simDesc := fun x y =>
  inferInstanceAs (Decidable (y.2.2 < x.2.2 ∨ (x.2.2 = y.2.2 ∧ y.2.1 ≤ x.2.1)))

instance : IsTotal (String × Nat × ℚ) simDesc :=
  ⟨fun x y => by
    rcases lt_trichotomy x.2.2 y.2.2 with h | h | h
    · exact Or.inr (Or.inl h)
    · rcases le_total y.2.1 x.2.1 with h' | h'
      · exact Or.inl (Or.inr ⟨h, h'⟩)
      · exact Or.inr (Or.inr ⟨h.symm, h'⟩)
    · exact Or.inl (Or.inl h)⟩

instance : IsTrans (String × Nat × ℚ) simDesc :=
  ⟨fun x y z h1 h2 => by
    rcases h1 with h1 | ⟨e1, l1⟩
    · rcases h2 with h2 | ⟨e2, l2⟩
      · exact Or.inl (lt_trans h2 h1)
      · exact Or.inl (e2 ▸ h1)
    · rcases h2 with h2 | ⟨e2, l2⟩
      · exact Or.inl (e1 ▸ h2)
      · exact Or.inr ⟨e1.trans e2, le_trans l2 l1⟩⟩

/-- GraphManager.find_similar_accounts: empty unless the source account
exists and follows somebody; otherwise the score-positive rows sorted by
score then common-follow count, both descending, truncated by LIMIT. -/
def find_similar_accounts (g : Graph) (account : String) (limit : Nat) :
    List (String × Nat × ℚ) :=
  if account ∈ g.accounts ∧ followTargets g account ≠ [] then
    (List.insertionSort simDesc (similarityRows g account)).take limit
  else []

/-! ### recommend_posts (GraphManager.recommend_posts)

  MATCH (a:Account {name: $name})-[:Follows]->(followed:Account)-[:Likes]->(p:Post)
  WHERE NOT (a)-[:Likes]->(p)
  WITH p, count(DISTINCT followed) AS followed_likes
  OPTIONAL MATCH (a:Account {name: $name})-[:Follows]->(poster:Account)-[:Posts]->(p2:Post)
  WHERE p = p2
  WITH p, followed_likes, count(p2) > 0 AS from_followed
  WITH p, followed_likes, from_followed,
       CASE WHEN from_followed THEN 1.5 ELSE 1 END * followed_likes AS recommendation_score
  RETURN p.post_id, p.post_content, recommendation_score
  ORDER BY recommendation_score DESC LIMIT $limit -/

/-- count(DISTINCT followed) for post `p`: the distinct accounts followed
by `account` that like `p`. -/
def likedByFollowed (g : Graph) (account : String) (p : Post) : List String :=
  ((followTargets g account).filter (fun f => decide ((f, p.post_id) ∈ g.likes))).dedup

/-- CASE WHEN from_followed THEN 1.5 ELSE 1 END * followed_likes, where
from_followed holds when the post's author (its unique Posts source) is
followed by the source account. -/
def recommendationScore (g : Graph) (account : String) (p : Post) : ℚ :=
  (if p.author ∈ followTargets g account then (3 : ℚ) / 2 else 1) *
    ((likedByFollowed g account p).length : ℚ)

/-- Candidate posts: liked by at least one followed account and not
already liked by the source account (`WHERE NOT (a)-[:Likes]->(p)`).
The initial MATCH binds the source account node, so a missing source
account yields no rows. -/
def recommendCandidates (g : Graph) (account : String) : List Post :=
  if account ∈ g.accounts then
    g.posts.filter (fun p =>
      decide (likedByFollowed g account p ≠ [] ∧ (account, p.post_id) ∉ g.likes))
  else []

/-- GraphManager.recommend_posts: candidate rows
(post_id, content, recommendation_score) sorted by score descending,
truncated by LIMIT. -/
def recommend_posts (g : Graph) (account : String) (limit : Nat) :
    List (String × String × ℚ) :=
  (List.insertionSort (byScoreDesc (fun r => r.2.2))
    ((recommendCandidates g account).map
      (fun p => (p.post_id, p.post_content, recommendationScore g account p)))).take limit

/-! ### parse_profile_metrics (NL_Query_Processor.parse_profile_metrics)

The Python method scans the report with `re.search`/`re.findall`.  Each
pattern used is translated into a deterministic scanner over the
character list.  Search semantics (leftmost match) are modelled by
`firstMatch`, which tries the pattern at every position left to right.
Greedy one-or-more character-class pieces followed by a character outside
the class are forced to maximal munch; the two genuinely backtracking
pieces (the DOTALL `.+` of the header pattern and the `.+` of the index
pattern) try the longest consumption first, exactly as the greedy engine
does.  Numeric groups `(\d+)` are read with int(), modelled by
`natOfDigits`; decimal groups `(\d+\.\d+)` are read with float(),
modelled as the exact rational value of the decimal literal. -/

/-- Python \s (ASCII range): space, tab, newline, carriage return,
vertical tab, form feed. -/
def isSpaceC (c : Char) : Bool :=
  c == ' ' || c == '\t' || c == '\n' || c == '\r' || c == '\x0b' || c == '\x0c'

/-- Python \w (ASCII range): letters, digits, underscore. -/
def isWordC (c : Char) : Bool :=
  c.isAlphanum || c == '_'

/-- Case-insensitive character comparison (re.IGNORECASE). -/
def charCI (a b : Char) : Bool :=
  a.toLower == b.toLower

/-- Consume an exact literal, case-sensitively. -/
def stripLitCS : List Char → List Char → Option (List Char)
  | [], cs => some cs
  | _ :: _, [] => none
  | p :: ps, c :: cs => if c == p then stripLitCS ps cs else none

/-- Consume an exact literal, case-insensitively. -/
def stripLitCI : List Char → List Char → Option (List Char)
  | [], cs => some cs
  | _ :: _, [] => none
  | p :: ps, c :: cs => if charCI c p then stripLitCI ps cs else none

/-- Consume one expected character. -/
def expectChar (ch : Char) : List Char → Option (List Char)
  | [] => none
  | c :: cs => if c == ch then some cs else none

/-- re.search: try the pattern at each position from the left; the first
position where it matches wins (the empty suffix is also a position). -/
def firstMatch {α : Type} (tryAt : List Char → Option α) : List Char → Option α
  | [] => tryAt []
  | c :: cs =>
    match tryAt (c :: cs) with
    | some r => some r
    | none => firstMatch tryAt cs

/-- int() on a digit group. -/
def natOfDigits (ds : List Char) : Nat :=
  ds.foldl (fun n c => 10 * n + (c.toNat - '0'.toNat)) 0

/-- float() on a `(\d+\.\d+)` group, as the exact decimal value. -/
def decimalToRat (intPart fracPart : List Char) : ℚ :=
  (natOfDigits intPart : ℚ) +
    (natOfDigits fracPart : ℚ) / ((10 : ℚ) ^ fracPart.length)

/-- Tail of the header pattern after the DOTALL `.+`:
`, planner: \w+, runtime: \w+\. (\d+) total db hits in (\d+\.\d+) ms\.`
(each quantified class is followed by a character outside the class, so
greedy matching is maximal munch). -/
def cypherTailAt (cs0 : List Char) : Option (Nat × ℚ) := do
  let cs1 ← stripLitCS ", planner: ".toList cs0
  let (w1, cs2) := cs1.span isWordC
  if w1.isEmpty then none
  else do
    let cs3 ← stripLitCS ", runtime: ".toList cs2
    let (w2, cs4) := cs3.span isWordC
    if w2.isEmpty then none
    else do
      let cs5 ← stripLitCS ". ".toList cs4
      let (d, cs6) := cs5.span Char.isDigit
      if d.isEmpty then none
      else do
        let cs7 ← stripLitCS " total db hits in ".toList cs6
        let (a, cs8) := cs7.span Char.isDigit
        if a.isEmpty then none
        else do
          let cs9 ← expectChar '.' cs8
          let (b, cs10) := cs9.span Char.isDigit
          if b.isEmpty then none
          else do
            let _ ← stripLitCS " ms.".toList cs10
            pure (natOfDigits d, decimalToRat a b)

/-- Greedy DOTALL `.+` before a deterministic tail: consume at least one
character, preferring the longest consumption (longest tried first). -/
def greedyAnyThen {α : Type} (tail : List Char → Option α) : List Char → Option α
  | [] => none
  | _ :: rest =>
    match greedyAnyThen tail rest with
    | some r => some r
    | none => tail rest

/-- One attempt of the header pattern
`Cypher version:.+, planner: ...` (re.DOTALL) at a position. -/
def tryCypherAt (cs : List Char) : Option (Nat × ℚ) :=
  (stripLitCS "Cypher version:".toList cs).bind (greedyAnyThen cypherTailAt)

/-- re.search of the header pattern: group 1 is total db hits, group 2 the
execution time in ms. -/
def cypherSearch (cs : List Char) : Option (Nat × ℚ) :=
  firstMatch tryCypherAt cs

/-- One attempt of `planning: (\d+\.\d+) ms` at a position. -/
def tryPlanningAt (cs0 : List Char) : Option ℚ := do
  let cs1 ← stripLitCS "planning: ".toList cs0
  let (d1, cs2) := cs1.span Char.isDigit
  if d1.isEmpty then none
  else do
    let cs3 ← expectChar '.' cs2
    let (d2, cs4) := cs3.span Char.isDigit
    if d2.isEmpty then none
    else do
      let _ ← stripLitCS " ms".toList cs4
      pure (decimalToRat d1 d2)

/-- re.search of the planning-time pattern. -/
def planningSearch (cs : List Char) : Option ℚ :=
  firstMatch tryPlanningAt cs

/-- One attempt of `memory\s*\[\s*([\d\.]+\s*[KMG]B)\s*\]` (re.IGNORECASE)
at a position; the group keeps the original text of number, inner spaces
and unit. -/
def tryMemoryAt (cs0 : List Char) : Option String := do
  let cs1 ← stripLitCI "memory".toList cs0
  let cs2 := (cs1.span isSpaceC).2
  let cs3 ← expectChar '[' cs2
  let cs4 := (cs3.span isSpaceC).2
  let (d, cs5) := cs4.span (fun c => c.isDigit || c == '.')
  if d.isEmpty then none
  else do
    let (sp, cs6) := cs5.span isSpaceC
    match cs6 with
    | u :: b :: cs7 =>
      if (u.toLower == 'k' || u.toLower == 'm' || u.toLower == 'g') && b.toLower == 'b' then do
        let cs8 := (cs7.span isSpaceC).2
        let _ ← expectChar ']' cs8
        pure (String.mk (d ++ sp ++ [u, b]))
      else none
    | _ => none

/-- re.search of the memory-usage pattern. -/
def memorySearch (cs : List Char) : Option String :=
  firstMatch tryMemoryAt cs

/-- The lookahead `(?=\+|$)` of the operator-block pattern: the next
character is '+', or the position is at the end of the input (a single
trailing newline also counts as the end, as for Python `$` without
re.MULTILINE). -/
def lookAheadOk : List Char → Bool
  | [] => true
  | ['\n'] => true
  | c :: _ => c == '+'

/-- The lazy `([^+]+?)(?=\+|$)` piece: the shortest nonempty run of
non-'+' characters after which the lookahead holds, together with the
rest of the input (the lookahead consumes nothing). -/
def lazyNonPlus : List Char → Option (List Char × List Char)
  | [] => none
  | c :: rest =>
    if c == '+' then none
    else if lookAheadOk rest then some ([c], rest)
    else
      match lazyNonPlus rest with
      | some (grp, r) => some (c :: grp, r)
      | none => none

/-- The `\-*` piece followed by the lazy body: greedy, so first consume
all `h` hyphens; on failure give hyphens back one at a time (they are
also matched by `[^+]`). -/
def blockBody : Nat → List Char → Option (List Char × List Char)
  | 0, tl => lazyNonPlus tl
  | h + 1, tl =>
    match lazyNonPlus tl with
    | some r => some r
    | none => blockBody h ('-' :: tl)

/-- One attempt of `\+\-*([^+]+?)(?=\+|$)` at a position: a '+', then
hyphens, then the lazy group. -/
def blockAt : List Char → Option (List Char × List Char)
  | '+' :: rest => blockBody (rest.takeWhile (fun c => c == '-')).length
      (rest.dropWhile (fun c => c == '-'))
  | _ => none

/-- re.findall driver, with fuel: at each position try the block pattern;
on a match emit the group and continue after it, otherwise move one
character right.  Each step strictly shortens the input, so fuel equal to
the input length never runs out before the input does (see
findBlocksAux_fuel below). -/
def findBlocksAux : Nat → List Char → List (List Char)
  | 0, _ => []
  | _ + 1, [] => []
  | n + 1, c :: cs =>
    match blockAt (c :: cs) with
    | some (grp, rest) => grp :: findBlocksAux n rest
    | none => findBlocksAux n cs

/-- re.findall of the operator-block pattern over the whole report. -/
def findBlocks (cs : List Char) : List (List Char) :=
  findBlocksAux cs.length cs

/-- `([A-Za-z]+)`: the first maximal run of ASCII letters. -/
def firstAlphaRun : List Char → Option (List Char)
  | [] => none
  | c :: cs =>
    if c.isAlpha then some (c :: (cs.span Char.isAlpha).1)
    else firstAlphaRun cs

/-- One attempt of a `key\s*\[\s*(\d+)\s*\]` pattern (re.IGNORECASE),
used for both `db hits` and `rows`. -/
def tryBracketNumAt (key : List Char) (cs0 : List Char) : Option Nat := do
  let cs1 ← stripLitCI key cs0
  let cs2 := (cs1.span isSpaceC).2
  let cs3 ← expectChar '[' cs2
  let cs4 := (cs3.span isSpaceC).2
  let (d, cs5) := cs4.span Char.isDigit
  if d.isEmpty then none
  else do
    let cs6 := (cs5.span isSpaceC).2
    let _ ← expectChar ']' cs6
    pure (natOfDigits d)

/-- One attempt of `elapsed\s*\[\s*(\d+)\s*ms\s*\]` (re.IGNORECASE). -/
def tryElapsedAt (cs0 : List Char) : Option Nat := do
  let cs1 ← stripLitCI "elapsed".toList cs0
  let cs2 := (cs1.span isSpaceC).2
  let cs3 ← expectChar '[' cs2
  let cs4 := (cs3.span isSpaceC).2
  let (d, cs5) := cs4.span Char.isDigit
  if d.isEmpty then none
  else do
    let cs6 := (cs5.span isSpaceC).2
    let cs7 ← stripLitCI "ms".toList cs6
    let cs8 := (cs7.span isSpaceC).2
    let _ ← expectChar ']' cs8
    pure (natOfDigits d)

/-- The lazy `(.+?)\)` piece of the index pattern (`.` is non-newline
here, no DOTALL): the shortest nonempty non-newline run followed by a
closing parenthesis. -/
def lazyUntilParen : List Char → Option (List Char)
  | [] => none
  | c :: rest =>
    if c == '\n' then none
    else
      match rest with
      | ')' :: _ => some [c]
      | _ =>
        match lazyUntilParen rest with
        | some grp => some (c :: grp)
        | none => none

/-- After the greedy `.+`: an opening parenthesis, then the lazy group. -/
def indexParenTailAt (cs0 : List Char) : Option (List Char) := do
  let cs1 ← expectChar '(' cs0
  lazyUntilParen cs1

/-- Greedy non-newline `.+` before a deterministic tail, longest first. -/
def greedyNonNlThen {α : Type} (tail : List Char → Option α) : List Char → Option α
  | [] => none
  | c :: rest =>
    if c == '\n' then none
    else
      match greedyNonNlThen tail rest with
      | some r => some r
      | none => tail rest

/-- One attempt of `(Index|NodeIndexSeek).+\((.+?)\)` (re.IGNORECASE) at a
position; the alternation tries `Index` first, then `NodeIndexSeek`,
each with the full continuation. -/
def tryIndexAt (cs0 : List Char) : Option (List Char) :=
  match (stripLitCI "Index".toList cs0).bind (greedyNonNlThen indexParenTailAt) with
  | some r => some r
  | none => (stripLitCI "NodeIndexSeek".toList cs0).bind (greedyNonNlThen indexParenTailAt)

/-- re.search of the index pattern: group 2, the parenthesised name. -/
def indexSearch (cs : List Char) : Option String :=
  (firstMatch tryIndexAt cs).map String.mk

/-- One attempt of `cache hits: (\d+)` / `cache misses: (\d+)`
(re.IGNORECASE) at a position. -/
def tryCacheAt (key : List Char) (cs0 : List Char) : Option Nat := do
  let cs1 ← stripLitCI key cs0
  let (d, _) := cs1.span Char.isDigit
  if d.isEmpty then none else pure (natOfDigits d)

/-- One row of the per-operator statistics list. -/
structure OperatorStat where
  name : String
  db_hits : Nat
  rows : Nat
  elapsed_ms : Nat
deriving DecidableEq, Repr

/-- The metrics dictionary built by parse_profile_metrics. -/
structure ProfileMetrics where
  db_hits : Nat
  rows : Nat
  elapsed_time_ms : Nat
  memory_usage : String
  operators : List OperatorStat
  total_db_hits : Nat
  query_time_ms : ℚ
  planning_time_ms : ℚ
  indexes_used : List String
  cache_hits : Nat
  cache_misses : Nat
deriving DecidableEq, Repr

/-- The initial metrics dictionary: every field at its zero/empty
default. -/
def emptyMetrics : ProfileMetrics :=
  ⟨0, 0, 0, "", [], 0, 0, 0, [], 0, 0⟩

/-- The per-operator-block body of the loop: operator name (first
alphabetic run), db hits (added to the running sum), rows (overwriting
the running value only when matched), elapsed (running maximum, updated
only when matched), index name (appended when not yet present), and the
operator entry appended to the operators list. -/
def applyOperatorBlock (m : ProfileMetrics) (block : List Char) : ProfileMetrics :=
  let operator_name :=
    match firstAlphaRun block with
    | some r => String.mk r
    | none => ""
  let dbHitsM := firstMatch (tryBracketNumAt "db hits".toList) block
  let db_hits := dbHitsM.getD 0
  let rowsM := firstMatch (tryBracketNumAt "rows".toList) block
  let rows := rowsM.getD 0
  let elapsedM := firstMatch tryElapsedAt block
  let elapsed := elapsedM.getD 0
  let indexM := indexSearch block
  { m with
    db_hits := m.db_hits + db_hits
    rows := if rowsM.isSome then rows else m.rows
    elapsed_time_ms :=
      if elapsedM.isSome then max m.elapsed_time_ms elapsed else m.elapsed_time_ms
    indexes_used :=
      match indexM with
      | some idx =>
        if idx ∈ m.indexes_used then m.indexes_used else m.indexes_used ++ [idx]
      | none => m.indexes_used
    operators := m.operators ++ [⟨operator_name, db_hits, rows, elapsed⟩] }

/-- NL_Query_Processor.parse_profile_metrics: header, planning, memory and
cache fields from their single searches, then the operator-block loop. -/
def parse_profile_metrics (s : String) : ProfileMetrics :=
  let cs := s.toList
  let timeM := cypherSearch cs
  let planningM := planningSearch cs
  let memoryM := memorySearch cs
  let cacheHitsM := firstMatch (tryCacheAt "cache hits: ".toList) cs
  let cacheMissesM := firstMatch (tryCacheAt "cache misses: ".toList) cs
  let base : ProfileMetrics :=
    { emptyMetrics with
      total_db_hits := (timeM.map (fun r => r.1)).getD 0
      query_time_ms := (timeM.map (fun r => r.2)).getD 0
      planning_time_ms := planningM.getD 0
      memory_usage := memoryM.getD ""
      cache_hits := cacheHitsM.getD 0
      cache_misses := cacheMissesM.getD 0 }
  (findBlocks cs).foldl applyOperatorBlock base

/-- The illustrative profile-report fragment of spec section 6. -/
def specFragment : String :=
  "Summary: 842 total data-access operations in 3.210 ms. planning: 0.450 ms. memory [1.2 MB]\n+-Operator1 (db hits[210], rows[50], elapsed[1 ms], index[account_name_unique])\n+-Operator2 (db hits[632], rows[50], elapsed[2 ms])\ncache hits: 5 cache misses: 1"

/-- Concrete graph used as a witness input: A follows B and C; B authored
p1 (liked by B and C), the unfollowed account D authored p2 (liked by B),
and C authored p3, which A itself already liked. -/
def witnessGraph : Graph :=
  ⟨["A", "B", "C"],
   [("A", "B"), ("A", "C")],
   [⟨"p1", "one", "B"⟩, ⟨"p2", "two", "D"⟩, ⟨"p3", "three", "C"⟩],
   [("B", "p1"), ("C", "p1"), ("B", "p2"), ("A", "p3"), ("C", "p3")]⟩

/-! ## Theorems for the spec claims -/

/-- The lazy group consumes at least one character. -/
theorem lazyNonPlus_length :
    ∀ {cs grp r : List Char}, lazyNonPlus cs = some (grp, r) → r.length < cs.length := by
  intro cs
  induction cs with
  | nil => intro grp r h; exact Option.noConfusion h
  | cons c rest ih =>
    intro grp r h
    unfold lazyNonPlus at h
    split at h
    · exact Option.noConfusion h
    · split at h
      · rw [Option.some.injEq, Prod.mk.injEq] at h
        rw [← h.2]
        simp
      · cases hrec : lazyNonPlus rest with
        | none => rw [hrec] at h; exact Option.noConfusion h
        | some p =>
          obtain ⟨g2, r2⟩ := p
          rw [hrec, Option.some.injEq, Prod.mk.injEq] at h
          rw [← h.2]
          exact Nat.lt_succ_of_lt (ih hrec)

/-- The hyphen piece plus the lazy group together consume at least one
character beyond what hyphen give-backs re-added. -/
theorem blockBody_length :
    ∀ (h : Nat) (tl grp r : List Char), blockBody h tl = some (grp, r) →
      r.length < h + tl.length := by
  intro h
  induction h with
  | zero =>
    intro tl grp r hb
    have := lazyNonPlus_length hb
    omega
  | succ h ih =>
    intro tl grp r hb
    unfold blockBody at hb
    cases hlz : lazyNonPlus tl with
    | some p =>
      obtain ⟨g2, r2⟩ := p
      rw [hlz, Option.some.injEq, Prod.mk.injEq] at hb
      have := lazyNonPlus_length hlz
      rw [hb.2] at this
      omega
    | none =>
      rw [hlz] at hb
      have := ih ('-' :: tl) grp r hb
      simp only [List.length_cons] at this
      omega

/-- A successful block match strictly shortens the input. -/
theorem blockAt_length :
    ∀ {cs grp r : List Char}, blockAt cs = some (grp, r) → r.length < cs.length := by
  intro cs grp r h
  unfold blockAt at h
  split at h
  · rename_i rest
    have hsum : (rest.takeWhile (fun c => c == '-')).length +
        (rest.dropWhile (fun c => c == '-')).length = rest.length := by
      rw [← List.length_append, List.takeWhile_append_dropWhile]
    have := blockBody_length _ _ _ _ h
    simp only [List.length_cons]
    omega
  · exact Option.noConfusion h

/-- The findall driver is fuel-independent once the fuel covers the input
length: every step consumes at least one character, so fuel equal to the
input length is always sufficient. -/
theorem findBlocksAux_fuel :
    ∀ (n m : Nat) (cs : List Char), cs.length ≤ n → cs.length ≤ m →
      findBlocksAux n cs = findBlocksAux m cs := by
  intro n
  induction n with
  | zero =>
    intro m cs hn _
    have hcs : cs = [] := List.eq_nil_of_length_eq_zero (Nat.le_zero.1 hn)
    subst hcs
    cases m <;> rfl
  | succ n ih =>
    intro m cs hn hm
    cases cs with
    | nil => cases m <;> rfl
    | cons c rest =>
      cases m with
      | zero => simp at hm
      | succ m =>
        simp only [List.length_cons] at hn hm
        cases hb : blockAt (c :: rest) with
        | some p =>
          obtain ⟨grp, r⟩ := p
          have hlt := blockAt_length hb
          simp only [List.length_cons] at hlt
          simp only [findBlocksAux, hb]
          rw [ih m r (by omega) (by omega)]
        | none =>
          simp only [findBlocksAux, hb]
          exact ih m rest (by omega) (by omega)

/-- The operator-block loop never writes the header, planning, memory or
cache fields. -/
theorem applyOperatorBlock_preserves (m : ProfileMetrics) (b : List Char) :
    (applyOperatorBlock m b).total_db_hits = m.total_db_hits ∧
    (applyOperatorBlock m b).query_time_ms = m.query_time_ms ∧
    (applyOperatorBlock m b).planning_time_ms = m.planning_time_ms ∧
    (applyOperatorBlock m b).memory_usage = m.memory_usage ∧
    (applyOperatorBlock m b).cache_hits = m.cache_hits ∧
    (applyOperatorBlock m b).cache_misses = m.cache_misses :=
  ⟨rfl, rfl, rfl, rfl, rfl, rfl⟩

/-- Folding the operator-block loop over any block list never writes the
header, planning, memory or cache fields. -/
theorem foldl_applyOperatorBlock_preserves (bs : List (List Char)) :
    ∀ m : ProfileMetrics,
      (bs.foldl applyOperatorBlock m).total_db_hits = m.total_db_hits ∧
      (bs.foldl applyOperatorBlock m).query_time_ms = m.query_time_ms ∧
      (bs.foldl applyOperatorBlock m).planning_time_ms = m.planning_time_ms ∧
      (bs.foldl applyOperatorBlock m).memory_usage = m.memory_usage ∧
      (bs.foldl applyOperatorBlock m).cache_hits = m.cache_hits ∧
      (bs.foldl applyOperatorBlock m).cache_misses = m.cache_misses := by
  induction bs with
  | nil => intro m; exact ⟨rfl, rfl, rfl, rfl, rfl, rfl⟩
  | cons b bs ih =>
    intro m
    have h1 := applyOperatorBlock_preserves m b
    have h2 := ih (applyOperatorBlock m b)
    rw [List.foldl_cons]
    exact ⟨h2.1.trans h1.1, h2.2.1.trans h1.2.1, h2.2.2.1.trans h1.2.2.1,
           h2.2.2.2.1.trans h1.2.2.2.1, h2.2.2.2.2.1.trans h1.2.2.2.2.1,
           h2.2.2.2.2.2.trans h1.2.2.2.2.2⟩

unseal Rat.mul Rat.inv Rat.add Rat.sub in
/-- Claim C1 (code bug).  On the one-account graph with zero Follows
edges, one iteration and damping 0.85, the custom ranking returns the
account with score 1 — the initialisation value — not the claimed
1 - damping = 0.15: the iteration query's UNWIND of the empty follower
list produces no rows, so the SET that would write the base score never
executes for an account without followers. -/
theorem pagerank_zero_edges_keeps_init_score :
    custom_pagerank_implementation ⟨["A"], [], [], []⟩ 1 (17/20) = [("A", 1)] ∧
    (1 : ℚ) ≠ 1 - 17/20 := by decide

unseal Rat.mul Rat.inv Rat.add Rat.sub in
/-- Claim C2 (code bug).  On the three-account graph with Follows edges
B→A, C→A, C→B, one iteration and damping 0.85, the code returns
A ↦ 57/40 = 1.425 and B ↦ 23/40 = 0.575 as the claim says, but C keeps
its initialisation value 1 instead of the claimed 0.15 (C has no
followers, so its SET never runs), and the descending order is therefore
A, C, B, not A, B, C. -/
theorem pagerank_abc_one_round_actual :
    custom_pagerank_implementation
        ⟨["A", "B", "C"], [("B", "A"), ("C", "A"), ("C", "B")], [], []⟩ 1 (17/20) =
      [("A", 57/40), ("C", 1), ("B", 23/40)] ∧
    custom_pagerank_implementation
        ⟨["A", "B", "C"], [("B", "A"), ("C", "A"), ("C", "B")], [], []⟩ 1 (17/20) ≠
      [("A", 57/40), ("B", 23/40), ("C", 3/20)] := by decide

/-- Claim C4, counterexample.  When the result-read round-trip (the
fourth store query of a one-iteration run) raises, the exception
propagates before the cleanup query executes, so the accounts still hold
the ephemeral pagerank/prevPagerank properties: the claim that no
execution leaves residual rank state is false. -/
theorem pagerank_state_retained_on_failure :
    ¬ noResidualState (customPagerankRun ⟨["A"], [], [], []⟩ 1 (fun k => k == 3)) := by
  decide

/-- With a failure-free oracle every round-trip of the protocol runs, the
trailing cleanup query included, so the run returns normally with the
properties removed. -/
theorem runPRSteps_no_fail (fail : Nat → Bool) (hfail : ∀ k, fail k = false) :
    ∀ (l : List PRStep) (k : Nat) (props : Bool),
      runPRSteps fail (l ++ [PRStep.cleanup]) k props = Except.ok false := by
  intro l
  induction l with
  | nil =>
    intro k props
    simp only [List.nil_append, runPRSteps, hfail k, Bool.false_eq_true, if_false]
    simp [runPRSteps]
  | cons s l ih =>
    intro k props
    simp only [List.cons_append, runPRSteps, hfail k, Bool.false_eq_true, if_false]
    exact ih (k + 1) _

/-- Claim C4, amended.  The cleanup query is issued after the result
read, not from a finally block, so the guarantee that holds is: on every
execution in which no store round-trip fails, the call returns normally
and no account retains the ephemeral pagerank or prevPagerank
properties; when a round-trip raises, the properties written so far
persist (see the counterexample). -/
theorem pagerank_cleanup_when_no_failure (g : Graph) (iterations : Nat)
    (fail : Nat → Bool) (hfail : ∀ k, fail k = false) :
    noResidualState (customPagerankRun g iterations fail) := by
  unfold customPagerankRun
  rw [hfail 0]
  simp only [Bool.false_eq_true, if_false]
  by_cases hA : g.accounts.isEmpty
  · simp [hA, noResidualState, residualProps]
  · simp only [hA, Bool.false_eq_true, if_false]
    have h : prRounds iterations ++ [PRStep.readResult, PRStep.cleanup] =
        (prRounds iterations ++ [PRStep.readResult]) ++ [PRStep.cleanup] := by
      simp
    rw [h, runPRSteps_no_fail fail hfail]
    rfl

/-- Witness for C4's amended theorem at a concrete one-account graph and
the oracle on which no round-trip fails. -/
theorem pagerank_cleanup_when_no_failure_witness :
    noResidualState (customPagerankRun ⟨["A"], [], [], []⟩ 1 (fun _ => false)) :=
  pagerank_cleanup_when_no_failure ⟨["A"], [], [], []⟩ 1 (fun _ => false) (fun _ => rfl)

/-- Claim C5 (confirmed).  Whatever exception the GDS bulk-ranking
attempt raises, calculate_pagerank logs a warning (then an info line)
and returns — normally, not by raising — exactly the custom iterative
implementation's result, so the caller sees neither an error nor a
different result shape on the fallback path. -/
theorem calculate_pagerank_fallback_transparent (g : Graph) (iterations : Nat)
    (damping : ℚ) (e : String) :
    calculate_pagerank g iterations damping (Except.error e) =
      (Except.ok (custom_pagerank_implementation g iterations damping),
       [LogLevel.warning, LogLevel.info]) := rfl

/-- Claim C7 (confirmed).  When the source account follows nobody the
first MATCH of the similarity query produces no rows, so
find_similar_accounts returns the empty list — no error and no division
by zero. -/
theorem find_similar_empty_follow_set (g : Graph) (account : String) (limit : Nat)
    (hF : followTargets g account = []) :
    find_similar_accounts g account limit = [] := by
  unfold find_similar_accounts
  exact if_neg (fun h => h.2 hF)

/-- Witness for C7 at a concrete graph where A has a follower but follows
nobody. -/
theorem find_similar_empty_follow_set_witness :
    find_similar_accounts ⟨["A", "B"], [("B", "A")], [], []⟩ "A" 10 = [] :=
  find_similar_empty_follow_set ⟨["A", "B"], [("B", "A")], [], []⟩ "A" 10 (by decide)

unseal Rat.mul Rat.inv Rat.add Rat.sub in
/-- Claim C3, counterexample.  Parsing the spec §6 fragment does not give
totalDbHits = 842, queryTimeMs = 3.210, indexesUsed = ["account_name_unique"]:
the header regex demands a
"Cypher version: …, planner: …, runtime: …. N total db hits in T ms."
line that the fragment's "Summary:" line is not, and the index regex
demands a parenthesised argument after the Index keyword, which
"index[account_name_unique]" does not have. -/
theorem profile_fragment_claim_false :
    ¬ ((parse_profile_metrics specFragment).total_db_hits = 842 ∧
       (parse_profile_metrics specFragment).query_time_ms = 321/100 ∧
       (parse_profile_metrics specFragment).indexes_used = ["account_name_unique"]) := by
  decide

unseal Rat.mul Rat.inv Rat.add Rat.sub in
/-- Claim C3, amended.  Parsing the spec §6 fragment yields
dbHits = 842, rows = 50, elapsedTimeMs = 2, memoryUsage = "1.2 MB",
planningTimeMs = 0.450, cacheHits = 5 and cacheMisses = 1 as claimed,
but totalDbHits = 0, queryTimeMs = 0 and indexesUsed = [] (the header
and index regexes do not match the fragment); the two operator blocks
are both named "Operator" (the name stops at the first non-letter). -/
theorem profile_fragment_actual_parse :
    parse_profile_metrics specFragment =
      ⟨842, 50, 2, "1.2 MB",
       [⟨"Operator", 210, 50, 1⟩, ⟨"Operator", 632, 50, 2⟩],
       0, 0, 9/20, [], 5, 1⟩ := by
  decide

/-- Claim C9 (confirmed).  The parser is a total function: the empty
report parses to the all-default record, and in general every field
whose search finds no match is left at its zero/empty default (the
header, planning, memory and cache fields equal their defaults whenever
their searches return none, and all block-derived fields equal their
defaults whenever the block scan finds no operator blocks). -/
theorem parse_profile_total_and_defaults :
    parse_profile_metrics "" = emptyMetrics ∧
    ∀ s : String,
      (cypherSearch s.toList = none →
        (parse_profile_metrics s).total_db_hits = 0 ∧
        (parse_profile_metrics s).query_time_ms = 0) ∧
      (planningSearch s.toList = none → (parse_profile_metrics s).planning_time_ms = 0) ∧
      (memorySearch s.toList = none → (parse_profile_metrics s).memory_usage = "") ∧
      (findBlocks s.toList = [] →
        (parse_profile_metrics s).operators = [] ∧
        (parse_profile_metrics s).db_hits = 0 ∧
        (parse_profile_metrics s).rows = 0 ∧
        (parse_profile_metrics s).elapsed_time_ms = 0 ∧
        (parse_profile_metrics s).indexes_used = []) ∧
      (firstMatch (tryCacheAt "cache hits: ".toList) s.toList = none →
        (parse_profile_metrics s).cache_hits = 0) ∧
      (firstMatch (tryCacheAt "cache misses: ".toList) s.toList = none →
        (parse_profile_metrics s).cache_misses = 0) := by
  constructor
  · decide
  · intro s
    refine ⟨?_, ?_, ?_, ?_, ?_, ?_⟩
    · intro h
      unfold parse_profile_metrics
      have hp := foldl_applyOperatorBlock_preserves (findBlocks s.toList)
      constructor
      · simp only [(hp _).1, h]
        rfl
      · simp only [(hp _).2.1, h]
        rfl
    · intro h
      unfold parse_profile_metrics
      simp only [(foldl_applyOperatorBlock_preserves (findBlocks s.toList) _).2.2.1, h]
      rfl
    · intro h
      unfold parse_profile_metrics
      simp only [(foldl_applyOperatorBlock_preserves (findBlocks s.toList) _).2.2.2.1, h]
      rfl
    · intro h
      unfold parse_profile_metrics
      simp only [h, List.foldl_nil]
      exact ⟨rfl, rfl, rfl, rfl, rfl⟩
    · intro h
      unfold parse_profile_metrics
      simp only [(foldl_applyOperatorBlock_preserves (findBlocks s.toList) _).2.2.2.2.1, h]
      rfl
    · intro h
      unfold parse_profile_metrics
      simp only [(foldl_applyOperatorBlock_preserves (findBlocks s.toList) _).2.2.2.2.2, h]
      rfl

/-- Witness for C9 at the empty report: every search returns none there,
and every field is at its default. -/
theorem parse_profile_total_and_defaults_witness :
    ((parse_profile_metrics "").total_db_hits = 0 ∧
      (parse_profile_metrics "").query_time_ms = 0) ∧
    (parse_profile_metrics "").planning_time_ms = 0 ∧
    (parse_profile_metrics "").memory_usage = "" ∧
    (parse_profile_metrics "").operators = [] ∧
    (parse_profile_metrics "").cache_hits = 0 ∧
    (parse_profile_metrics "").cache_misses = 0 :=
  ⟨(parse_profile_total_and_defaults.2 "").1 (by decide),
   (parse_profile_total_and_defaults.2 "").2.1 (by decide),
   (parse_profile_total_and_defaults.2 "").2.2.1 (by decide),
   ((parse_profile_total_and_defaults.2 "").2.2.2.1 (by decide)).1,
   (parse_profile_total_and_defaults.2 "").2.2.2.2.1 (by decide),
   (parse_profile_total_and_defaults.2 "").2.2.2.2.2 (by decide)⟩

/-- With at most one Follows edge per ordered pair (the MERGE invariant of
follow_account), the follow targets of an account are pairwise distinct. -/
theorem followTargets_nodup (g : Graph) (a : String) (hnodup : g.follows.Nodup) :
    (followTargets g a).Nodup := by
  unfold followTargets
  refine List.Nodup.map_on ?_ (hnodup.filter _)
  intro x hx y hy hxy
  have hx' := (List.mem_filter.1 hx).2
  have hy' := (List.mem_filter.1 hy).2
  rw [decide_eq_true_eq] at hx' hy'
  exact Prod.ext (hx'.1.trans hy'.1.symm) hxy

/-- Under the one-edge-per-pair invariant, the query's common-follow count
is exactly the cardinality of the intersection of the two follow sets. -/
theorem commonFollows_eq_card (g : Graph) (account o : String)
    (hnodup : g.follows.Nodup) :
    commonFollows g account o =
      ((followTargets g account).toFinset ∩ (followTargets g o).toFinset).card := by
  unfold commonFollows
  have hFo : (followTargets g o).Nodup := followTargets_nodup g o hnodup
  have hfil :
      ((followTargets g o).filter
        (fun x => decide (x ∈ followTargets g account))).Nodup := hFo.filter _
  have hset :
      ((followTargets g o).filter
          (fun x => decide (x ∈ followTargets g account))).toFinset =
        (followTargets g account).toFinset ∩ (followTargets g o).toFinset := by
    ext x
    simp only [List.mem_toFinset, List.mem_filter, decide_eq_true_eq, Finset.mem_inter]
    exact and_comm
  rw [← hset, List.card_toFinset, hfil.dedup]

/-- The common-follow count never exceeds the size of the source's follow
list. -/
theorem commonFollows_le (g : Graph) (account o : String)
    (hnodup : g.follows.Nodup) :
    commonFollows g account o ≤ (followTargets g account).length := by
  rw [commonFollows_eq_card g account o hnodup]
  exact le_trans (Finset.card_le_card Finset.inter_subset_left)
    (followTargets g account).toFinset_card_le

/-- Any row of find_similar_accounts comes from a candidate account: the
source account exists and follows somebody, and the row is the simRow of
some other account with at least one outgoing Follows edge whose
similarity score passed the positivity filter. -/
theorem mem_find_similar {g : Graph} {account : String} {limit : Nat}
    {r : String × Nat × ℚ} (hr : r ∈ find_similar_accounts g account limit) :
    (account ∈ g.accounts ∧ followTargets g account ≠ []) ∧
    ∃ o, o ∈ g.accounts ∧ o ≠ account ∧ followTargets g o ≠ [] ∧
      r = simRow g account o ∧ (0 : ℚ) < r.2.2 := by
  unfold find_similar_accounts at hr
  by_cases hc : account ∈ g.accounts ∧ followTargets g account ≠ []
  · refine ⟨hc, ?_⟩
    rw [if_pos hc] at hr
    have h1 := List.take_subset _ _ hr
    rw [List.mem_insertionSort] at h1
    unfold similarityRows at h1
    rw [List.mem_filter] at h1
    obtain ⟨h2, h3⟩ := h1
    rw [List.mem_map] at h2
    obtain ⟨o, ho, hro⟩ := h2
    rw [List.mem_filter] at ho
    obtain ⟨hoacc, hcond⟩ := ho
    rw [decide_eq_true_eq] at hcond
    rw [decide_eq_true_eq] at h3
    exact ⟨o, hoacc, hcond.1, hcond.2, hro.symm, h3⟩
  · rw [if_neg hc] at hr
    cases hr

/-- A positive similarity score forces a positive common-follow count
(the numerator of the score). -/
theorem commonFollows_pos_of_score_pos {g : Graph} {account o : String}
    (h : (0 : ℚ) < (simRow g account o).2.2) : 0 < commonFollows g account o := by
  by_contra hc0
  push_neg at hc0
  have hc : commonFollows g account o = 0 := Nat.le_zero.1 hc0
  have : (simRow g account o).2.2 =
      (commonFollows g account o : ℚ) / ((followTargets g account).length : ℚ) := rfl
  rw [this, hc] at h
  simp at h

/-- Claim C10 (confirmed).  Under the one-edge-per-ordered-pair data-model
invariant, every returned similarity row has a common-follow count
between 1 and the size of the source's follow set, and a score strictly
positive and at most 1. -/
theorem similarity_row_bounds (g : Graph) (account : String) (limit : Nat)
    (hnodup : g.follows.Nodup) :
    ∀ r ∈ find_similar_accounts g account limit,
      1 ≤ r.2.1 ∧ r.2.1 ≤ (followTargets g account).length ∧
      (0 : ℚ) < r.2.2 ∧ r.2.2 ≤ 1 := by
  intro r hr
  obtain ⟨⟨_, hF⟩, o, _, _, _, hro, hpos⟩ := mem_find_similar hr
  subst hro
  have hlen : 0 < (followTargets g account).length := List.length_pos.2 hF
  have hc : 0 < commonFollows g account o := commonFollows_pos_of_score_pos hpos
  refine ⟨hc, commonFollows_le g account o hnodup, hpos, ?_⟩
  show (commonFollows g account o : ℚ) / ((followTargets g account).length : ℚ) ≤ 1
  refine (div_le_one (by exact_mod_cast hlen)).2 ?_
  exact_mod_cast commonFollows_le g account o hnodup

unseal Rat.mul Rat.inv Rat.add Rat.sub in
/-- Witness for C10, at the row B = ("B", 1, 1) returned on the concrete
graph where A and B both follow C. -/
theorem similarity_row_bounds_witness :
    1 ≤ (("B", 1, (1 : ℚ)) : String × Nat × ℚ).2.1 ∧
    (("B", 1, (1 : ℚ)) : String × Nat × ℚ).2.1 ≤
      (followTargets ⟨["A", "B", "C"], [("A", "C"), ("B", "C")], [], []⟩ "A").length ∧
    (0 : ℚ) < (("B", 1, (1 : ℚ)) : String × Nat × ℚ).2.2 ∧
    (("B", 1, (1 : ℚ)) : String × Nat × ℚ).2.2 ≤ 1 :=
  similarity_row_bounds ⟨["A", "B", "C"], [("A", "C"), ("B", "C")], [], []⟩ "A" 10 (by decide)
    ("B", 1, 1) (by decide)

unseal Rat.mul Rat.inv Rat.add Rat.sub in
/-- Claim C6, counterexample.  The result is not exactly the accounts
with positive common-follow count: on the graph where A follows C and
both B and D follow C, D qualifies (common-follow count 1 with A), yet
with limit 1 the LIMIT clause truncates the sorted result to B's row
alone and D's row is absent. -/
theorem find_similar_limit_truncation :
    0 < commonFollows ⟨["A", "B", "C", "D"], [("A", "C"), ("B", "C"), ("D", "C")], [], []⟩
        "A" "D" ∧
    followTargets ⟨["A", "B", "C", "D"], [("A", "C"), ("B", "C"), ("D", "C")], [], []⟩
        "A" ≠ [] ∧
    find_similar_accounts ⟨["A", "B", "C", "D"], [("A", "C"), ("B", "C"), ("D", "C")], [], []⟩
        "A" 1 = [("B", 1, 1)] ∧
    simRow ⟨["A", "B", "C", "D"], [("A", "C"), ("B", "C"), ("D", "C")], [], []⟩ "A" "D" ∉
      find_similar_accounts ⟨["A", "B", "C", "D"], [("A", "C"), ("B", "C"), ("D", "C")], [], []⟩
        "A" 1 := by decide

/-- Claim C6, amended.  The LIMIT clause truncates: the call returns the
limit highest-ranked qualifying rows, and whenever the limit is at least
the number of qualifying rows it returns exactly the qualifying
accounts.  Precisely, with a source account that exists and follows
somebody, under the one-edge-per-pair invariant and a LIMIT at least the
number of qualifying rows: every returned row is the query row of some
other account with positive common-follow count equal to the
intersection cardinality and score equal to that count divided by the
size of the source's follow set; every such qualifying account's row is
returned; the result is sorted descending by score then by common-follow
count; and the follow-list length used as the divisor is exactly the
cardinality of the source's follow set. -/
theorem find_similar_characterization (g : Graph) (account : String) (limit : Nat)
    (hmem : account ∈ g.accounts) (hF : followTargets g account ≠ [])
    (hnodup : g.follows.Nodup)
    (hlim : (similarityRows g account).length ≤ limit) :
    (∀ r ∈ find_similar_accounts g account limit,
      ∃ o, o ∈ g.accounts ∧ o ≠ account ∧ r = simRow g account o ∧
        0 < commonFollows g account o ∧
        commonFollows g account o =
          ((followTargets g account).toFinset ∩ (followTargets g o).toFinset).card ∧
        r.2.2 = (commonFollows g account o : ℚ) / ((followTargets g account).length : ℚ)) ∧
    (∀ o ∈ g.accounts, o ≠ account → 0 < commonFollows g account o →
      simRow g account o ∈ find_similar_accounts g account limit) ∧
    List.Sorted simDesc (find_similar_accounts g account limit) ∧
    (followTargets g account).length = (followTargets g account).toFinset.card := by
  refine ⟨?_, ?_, ?_, ?_⟩
  · intro r hr
    obtain ⟨_, o, ho, hne, _, hro, hpos⟩ := mem_find_similar hr
    refine ⟨o, ho, hne, hro, ?_, commonFollows_eq_card g account o hnodup, ?_⟩
    · exact commonFollows_pos_of_score_pos (hro ▸ hpos)
    · rw [hro]
      rfl
  · intro o ho hne hc
    unfold find_similar_accounts
    rw [if_pos ⟨hmem, hF⟩]
    have hFo : followTargets g o ≠ [] := by
      intro h0
      unfold commonFollows at hc
      rw [h0] at hc
      simp at hc
    have hrow : simRow g account o ∈ similarityRows g account := by
      unfold similarityRows
      rw [List.mem_filter]
      refine ⟨List.mem_map_of_mem _ (List.mem_filter.2 ⟨ho, decide_eq_true ⟨hne, hFo⟩⟩), ?_⟩
      rw [decide_eq_true_eq]
      show (0 : ℚ) < (commonFollows g account o : ℚ) / ((followTargets g account).length : ℚ)
      refine div_pos ?_ ?_
      · exact_mod_cast hc
      · exact_mod_cast List.length_pos.2 hF
    rw [List.take_of_length_le]
    · rw [List.mem_insertionSort]
      exact hrow
    · rw [List.length_insertionSort]
      exact hlim
  · unfold find_similar_accounts
    rw [if_pos ⟨hmem, hF⟩]
    exact (List.sorted_insertionSort simDesc (similarityRows g account)).sublist
      (List.take_sublist _ _)
  · rw [List.card_toFinset, (followTargets_nodup g account hnodup).dedup]

unseal Rat.mul Rat.inv Rat.add Rat.sub in
/-- Witness for C6: on the graph where A and B both follow C, B's row is
returned and the result is sorted. -/
theorem find_similar_characterization_witness :
    simRow ⟨["A", "B", "C"], [("A", "C"), ("B", "C")], [], []⟩ "A" "B" ∈
      find_similar_accounts ⟨["A", "B", "C"], [("A", "C"), ("B", "C")], [], []⟩ "A" 10 ∧
    List.Sorted simDesc
      (find_similar_accounts ⟨["A", "B", "C"], [("A", "C"), ("B", "C")], [], []⟩ "A" 10) :=
  ⟨(find_similar_characterization ⟨["A", "B", "C"], [("A", "C"), ("B", "C")], [], []⟩ "A" 10
      (by decide) (by decide) (by decide) (by decide)).2.1 "B" (by decide) (by decide)
      (by decide),
   (find_similar_characterization ⟨["A", "B", "C"], [("A", "C"), ("B", "C")], [], []⟩ "A" 10
      (by decide) (by decide) (by decide) (by decide)).2.2.1⟩

/-- The count of distinct followed likers of a post equals the cardinality
of the corresponding subset of the source's follow set. -/
theorem likedByFollowed_card (g : Graph) (account : String) (p : Post) :
    (likedByFollowed g account p).length =
      ((followTargets g account).toFinset.filter
        (fun f => (f, p.post_id) ∈ g.likes)).card := by
  unfold likedByFollowed
  have hset :
      ((followTargets g account).filter
          (fun f => decide ((f, p.post_id) ∈ g.likes))).toFinset =
        (followTargets g account).toFinset.filter
          (fun f => (f, p.post_id) ∈ g.likes) := by
    ext f
    simp [List.mem_toFinset, List.mem_filter, decide_eq_true_eq]
  rw [← hset, List.card_toFinset]

/-- Claim C8 (confirmed).  Every recommended row comes from a post liked
by at least one followed account and never already liked by the source
account, its score is the distinct-followed-liker count boosted by 3/2
exactly when the post's author is followed (and by 1 otherwise), and the
result is sorted descending by score. -/
theorem recommend_posts_sound_and_sorted (g : Graph) (account : String) (limit : Nat) :
    (∀ r ∈ recommend_posts g account limit,
      ∃ p, p ∈ g.posts ∧
        r = (p.post_id, p.post_content, recommendationScore g account p) ∧
        (∃ f, f ∈ followTargets g account ∧ (f, p.post_id) ∈ g.likes) ∧
        (account, p.post_id) ∉ g.likes ∧
        recommendationScore g account p =
          (if p.author ∈ followTargets g account then (3 : ℚ) / 2 else 1) *
            (((followTargets g account).toFinset.filter
                (fun f => (f, p.post_id) ∈ g.likes)).card : ℚ)) ∧
    List.Sorted (byScoreDesc (fun r : String × String × ℚ => r.2.2))
      (recommend_posts g account limit) := by
  constructor
  · intro r hr
    unfold recommend_posts at hr
    have h1 := List.take_subset _ _ hr
    rw [List.mem_insertionSort, List.mem_map] at h1
    obtain ⟨p, hp, hrp⟩ := h1
    unfold recommendCandidates at hp
    by_cases hacc : account ∈ g.accounts
    · rw [if_pos hacc, List.mem_filter] at hp
      obtain ⟨hpp, hcond⟩ := hp
      rw [decide_eq_true_eq] at hcond
      obtain ⟨hliked, hnotliked⟩ := hcond
      refine ⟨p, hpp, hrp.symm, ?_, hnotliked, ?_⟩
      · obtain ⟨f, hf⟩ := List.exists_mem_of_ne_nil _ hliked
        unfold likedByFollowed at hf
        rw [List.mem_dedup, List.mem_filter] at hf
        obtain ⟨hf1, hf2⟩ := hf
        rw [decide_eq_true_eq] at hf2
        exact ⟨f, hf1, hf2⟩
      · unfold recommendationScore
        congr 1
        exact_mod_cast likedByFollowed_card g account p
    · rw [if_neg hacc] at hp
      cases hp
  · unfold recommend_posts
    exact (List.sorted_insertionSort
      (byScoreDesc (fun r : String × String × ℚ => r.2.2)) _).sublist
      (List.take_sublist _ _)

unseal Rat.mul Rat.inv Rat.add Rat.sub in
/-- Witness for C8: on the witness graph, the top row (post p1 with score
2 * 1.5 = 3) is a sound recommendation and the whole result is sorted. -/
theorem recommend_posts_sound_and_sorted_witness :
    (∃ p, p ∈ witnessGraph.posts ∧
      ("p1", "one", (3 : ℚ)) = (p.post_id, p.post_content, recommendationScore witnessGraph "A" p) ∧
      (∃ f, f ∈ followTargets witnessGraph "A" ∧ (f, p.post_id) ∈ witnessGraph.likes) ∧
      ("A", p.post_id) ∉ witnessGraph.likes ∧
      recommendationScore witnessGraph "A" p =
        (if p.author ∈ followTargets witnessGraph "A" then (3 : ℚ) / 2 else 1) *
          (((followTargets witnessGraph "A").toFinset.filter
              (fun f => (f, p.post_id) ∈ witnessGraph.likes)).card : ℚ)) ∧
    List.Sorted (byScoreDesc (fun r : String × String × ℚ => r.2.2))
      (recommend_posts witnessGraph "A" 10) :=
  ⟨(recommend_posts_sound_and_sorted witnessGraph "A" 10).1 ("p1", "one", 3) (by decide),
   (recommend_posts_sound_and_sorted witnessGraph "A" 10).2⟩

end SocialGraph
